import Mathlib

set_option autoImplicit false

namespace CompetitorAnalysis

/-!
Verification of the analysis orchestration pipeline of the Competitor
Analysis repository. The durable schema (database_schema.sql) and the
frontend (frontend/src/App.tsx) are embedded from their sources; the
backend pipeline (backend/main.py) is not present in the source tree, so
its components are modelled from the specification, as marked on each
definition.
-/

/-! ## Severity and weakness records

The severity enumeration mirrors the durable schema constraint
`severity TEXT NOT NULL CHECK (severity IN ('high', 'medium', 'low'))`
(database_schema.sql). -/

inductive Severity where
  | high
  | medium
  | low
deriving DecidableEq, Repr

/-- Weakness record produced by the Response Parser: title, description,
severity, category (spec section 3). -/
structure Weakness where
  title : String
  description : String
  severity : Severity
  category : String
deriving DecidableEq, Repr

/-- Result object of a successful analysis (spec section 3). Timestamps are
modelled as natural numbers. -/
structure AnalysisResult where
  competitorName : String
  targetUrl : String
  weaknesses : List Weakness
  analyzedAt : Nat
  rawContentLength : Nat
deriving DecidableEq, Repr

/-- Error taxonomy of the pipeline (spec section 7). `GenerationUnavailable`
carries the list of model ids that were attempted. -/
inductive AnalyzeError where
  | InvalidModel
  | FetchTimeout
  | FetchUnreachable
  | FetchEmptyContent
  | GenerationUnavailable (attempted : List String)
  | UnparseableResponse
deriving DecidableEq, Repr

/-- Modelled from the spec: section 7 classifies `InvalidModel` as a client
error and the fetch failures as client-facing; the generation and parsing
failures are server-facing. -/
def isClientError : AnalyzeError → Bool
  | .InvalidModel => true
  | .FetchTimeout => true
  | .FetchUnreachable => true
  | .FetchEmptyContent => true
  | .GenerationUnavailable _ => false
  | .UnparseableResponse => false

/-! ## Model Registry (spec section 4.1)

Modelled from the spec: `backend/main.py` holds the `SUPPORTED_MODELS`
whitelist and a server default model; neither file is in the source tree. -/

/-- Modelled from the spec: the allow-listed model identifiers and the
designated default id of the Model Registry. -/
structure Registry where
  allowList : List String
  defaultId : String

/-- Modelled from the spec: `resolve(requestedId) -> (effectiveId, usedFallback)`;
an allow-listed id is returned unchanged with `usedFallback = false`, any
other id fails with `InvalidModel` (spec section 4.1). -/
def resolve (reg : Registry) (requestedId : String) :
    Except AnalyzeError (String × Bool) :=
  if requestedId ∈ reg.allowList then .ok (requestedId, false)
  else .error .InvalidModel

/-! ## Generation Client Adapter (spec section 4.4) -/

/-- Provider-side failure of a single generation attempt (unavailable model,
quota exceeded, instantiation error, timeout), per spec section 4.4. -/
inductive ProviderError where
  | unavailableModel
  | quotaExceeded
  | instantiationError
  | timeout
deriving DecidableEq, Repr

/-- Modelled from the spec: `generate(prompt, effectiveId) -> rawText` with the
fallback chain of section 4.4. The external text-generation capability is the
oracle `provider`. The second component is the list of model ids attempted,
in order; on failure of all attempts the error carries that list. -/
def generate (reg : Registry) (provider : String → String → Except ProviderError String)
    (prompt effectiveId : String) :
    Except AnalyzeError String × List String :=
  match provider prompt effectiveId with
  | .ok t => (.ok t, [effectiveId])
  | .error _ =>
    if effectiveId = reg.defaultId then
      (.error (.GenerationUnavailable [effectiveId]), [effectiveId])
    else
      match provider prompt reg.defaultId with
      | .ok t => (.ok t, [effectiveId, reg.defaultId])
      | .error _ =>
        (.error (.GenerationUnavailable [effectiveId, reg.defaultId]),
         [effectiveId, reg.defaultId])

/-! ## Response Parser (spec section 4.5) -/

/-- A candidate entry as delimited by the entry markers of section 4.3: each
of the four fields is either present or missing. -/
structure RawEntry where
  title : Option String
  description : Option String
  severity : Option String
  category : Option String
deriving DecidableEq, Repr

/-- Modelled from the spec: the three recognized severity tokens map to their
enumeration value; an unrecognized or missing token normalizes to `low`
(spec section 4.5). -/
def normalizeSeverity : Option String → Severity
  | some "high" => .high
  | some "medium" => .medium
  | some "low" => .low
  | _ => .low

/-- Modelled from the spec: per-entry extraction policy of section 4.5. An
entry missing `title` or `description` is dropped (`none`); otherwise the
entry is kept, with severity normalized and a missing category defaulted to
`"General"`. -/
def parseEntry (e : RawEntry) : Option Weakness :=
  match e.title, e.description with
  | some t, some d =>
      some ⟨t, d, normalizeSeverity e.severity, e.category.getD "General"⟩
  | _, _ => none

/-- Modelled from the spec: `parse(rawText)` scans the raw text for candidate
entries (the marker scan is the oracle `scan`), applies the per-entry policy
in order, and fails with `UnparseableResponse` when zero valid entries were
extracted (spec section 4.5). -/
def parse (scan : String → List RawEntry) (raw : String) :
    Except AnalyzeError (List Weakness) :=
  let ws := (scan raw).filterMap parseEntry
  if ws.isEmpty then .error .UnparseableResponse else .ok ws

/-! ## Prompt Builder and Content Fetcher (spec sections 4.2 and 4.3) -/

/-- Successful fetch outcome: normalized page text and its length
(spec section 3). -/
structure FetchResult where
  text : String
  length : Nat
deriving DecidableEq, Repr

/-- Modelled from the spec: `render(competitorName, fetchedText)` is a pure
deterministic template embedding the competitor name, the fetched text and
the output-format instructions (spec section 4.3). -/
def render (competitorName fetchedText : String) : String :=
  "Analyze the competitor " ++ competitorName ++
  " from the following website content and list its weaknesses as entries" ++
  " with Title, Description, Severity and Category markers.\n" ++ fetchedText

/-! ## Analysis Orchestrator (spec section 4.7) -/

/-- States of the orchestrator state machine (spec section 4.7). -/
inductive Stage where
  | Start
  | ModelResolved
  | ContentFetched
  | PromptBuilt
  | Generated
  | Parsed
  | Persisted
  | PersistFailed
  | Done
deriving DecidableEq, Repr

/-- Modelled from the spec: the `analyze` orchestration (spec sections 4.7
and 7). The external capabilities are oracles: `fetchO` for the Content
Fetcher, `provider` for the generation transport, `scan` for the entry-marker
scan, and `saveO` for the Persistence Gateway (returning the competitor id or
a persistence failure). The second component is the list of states reached,
in order. Any failure before `Parsed` is terminal; a persistence failure
after `Parsed` degrades to `PersistFailed` and the request still reaches
`Done` with the successful result. -/
def analyze (reg : Registry)
    (fetchO : String → Except AnalyzeError FetchResult)
    (provider : String → String → Except ProviderError String)
    (scan : String → List RawEntry)
    (saveO : String → String → List Weakness → Except String Nat)
    (competitorName targetUrl requestedId : String) (now : Nat) :
    Except AnalyzeError AnalysisResult × List Stage :=
  match resolve reg requestedId with
  | .error e => (.error e, [.Start])
  | .ok (effectiveId, _usedFallback) =>
    match fetchO targetUrl with
    | .error e => (.error e, [.Start, .ModelResolved])
    | .ok fr =>
      let prompt := render competitorName fr.text
      match (generate reg provider prompt effectiveId).1 with
      | .error e => (.error e, [.Start, .ModelResolved, .ContentFetched, .PromptBuilt])
      | .ok raw =>
        match parse scan raw with
        | .error e =>
            (.error e,
             [.Start, .ModelResolved, .ContentFetched, .PromptBuilt, .Generated])
        | .ok ws =>
          let result : AnalysisResult :=
            ⟨competitorName, targetUrl, ws, now, fr.length⟩
          match saveO competitorName targetUrl ws with
          | .ok _ =>
              (.ok result,
               [.Start, .ModelResolved, .ContentFetched, .PromptBuilt,
                .Generated, .Parsed, .Persisted, .Done])
          | .error _ =>
              (.ok result,
               [.Start, .ModelResolved, .ContentFetched, .PromptBuilt,
                .Generated, .Parsed, .PersistFailed, .Done])


/-! ## Persistence Gateway and durable store (spec section 4.6)

The relational layout follows database_schema.sql: `competitors(id, name
UNIQUE, target_url, created_at, updated_at)` and `insights(id, competitor_id
FK, weakness_title, weakness_description, severity, category)`. Generated
row ids are modelled by a counter. The gateway itself is modelled from the
spec (upsert-by-name, then insert one insight row per weakness), since
`backend/main.py` is not in the source tree. -/

/-- A durable competitor row (database_schema.sql, `competitors`). -/
structure Competitor where
  id : Nat
  name : String
  targetUrl : String
  createdAt : Nat
  updatedAt : Nat
deriving DecidableEq, Repr

/-- A durable insight row referencing its competitor (database_schema.sql,
`insights`). -/
structure Insight where
  competitorId : Nat
  title : String
  description : String
  severity : Severity
  category : String
deriving DecidableEq, Repr

/-- The durable store: an id counter and the two relations. -/
structure Store where
  nextId : Nat
  competitors : List Competitor
  insights : List Insight
deriving DecidableEq, Repr

/-- One insight row per weakness, foreign-keyed to the given competitor id. -/
def insightRows (cid : Nat) (ws : List Weakness) : List Insight :=
  ws.map fun w => ⟨cid, w.title, w.description, w.severity, w.category⟩

/-- The update half of the upsert: refresh `targetUrl` and `updatedAt` of the
row with the given name, leave every other row unchanged. -/
def updateRow (name url : String) (now : Nat) (c : Competitor) : Competitor :=
  if c.name = name then { c with targetUrl := url, updatedAt := now } else c

/-- Modelled from the spec: `save(competitorName, targetUrl, weaknesses)`
upserts the Competitor row by name (insert if absent, else update
`targetUrl`/`updatedAt`) and inserts one Insight row per weakness referencing
the resolved competitor id (spec section 4.6). -/
def save (s : Store) (now : Nat) (name url : String) (ws : List Weakness) :
    Nat × Store :=
  match s.competitors.find? (fun c => c.name == name) with
  | some c =>
      (c.id,
       { s with
           competitors := s.competitors.map (updateRow name url now),
           insights := s.insights ++ insightRows c.id ws })
  | none =>
      (s.nextId,
       { nextId := s.nextId + 1,
         competitors := s.competitors ++ [⟨s.nextId, name, url, now, now⟩],
         insights := s.insights ++ insightRows s.nextId ws })

namespace Frontend

/-! ## Frontend (frontend/src/App.tsx)

The React component state and its handlers, embedded as pure functions.
JavaScript string primitives used by the component are embedded explicitly:
`includes`, single-occurrence `replace`, `split`, `trim`, and the truthiness
test on nullable strings. The browser URL constructor used for validation is
an external capability and appears as the oracle `validURL`. -/

/-- Character-level prefix test (the meaning of JavaScript `startsWith`). -/
def listStarts : List Char → List Char → Bool
  | _, [] => true
  | [], _ :: _ => false
  | c :: cs, p :: ps => c == p && listStarts cs ps

/-- Character-level substring test (the meaning of JavaScript `includes`). -/
def listContains : List Char → List Char → Bool
  | [], pat => listStarts [] pat
  | s@(_ :: rest), pat => listStarts s pat || listContains rest pat

/-- Character-level split on a one-character separator (the meaning of
JavaScript `split` with a one-character string). -/
def splitChar (sep : Char) (s : List Char) : List (List Char) :=
  s.foldr (fun c acc =>
    if c == sep then [] :: acc
    else match acc with
      | [] => [[c]]
      | y :: ys => (c :: y) :: ys) [[]]

/-- Character-level replacement of the first occurrence of a pattern (the
meaning of JavaScript `replace` with a plain string pattern). -/
def replaceFirstList (pat rep : List Char) : List Char → List Char
  | [] => if listStarts [] pat then rep else []
  | c :: cs =>
    if listStarts (c :: cs) pat then rep ++ (c :: cs).drop pat.length
    else c :: replaceFirstList pat rep cs

/-- JavaScript whitespace for `trim`, restricted to the common characters. -/
def isSpaceChar (c : Char) : Bool :=
  c == ' ' || c == '\t' || c == '\n' || c == '\r'

/-- JavaScript `trim`: strip whitespace from both ends. -/
def jsTrim (s : String) : String :=
  ⟨((s.data.dropWhile isSpaceChar).reverse.dropWhile isSpaceChar).reverse⟩

/-- JavaScript `startsWith`. -/
def jsStartsWith (s pat : String) : Bool :=
  listStarts s.data pat.data

/-- JavaScript `includes`. -/
def jsIncludes (s sub : String) : Bool :=
  listContains s.data sub.data

/-- JavaScript `split` with a one-character separator. -/
def jsSplitChar (sep : Char) (s : String) : List String :=
  (splitChar sep s.data).map fun l => ⟨l⟩

/-- JavaScript `replace` with a plain string pattern (first occurrence). -/
def jsReplaceFirst (s pat rep : String) : String :=
  ⟨replaceFirstList pat.data rep.data s.data⟩

/-- URL auto-completion of `handleAnalyze` (App.tsx lines 46 to 62): prepend
"https://" when no protocol is given; insert "www." when the host has no dot,
or when the url is a bare two-segment domain, in both cases only when it does
not contain "localhost". -/
def processUrl (u : String) : String :=
  let p := if jsStartsWith u "http://" || jsStartsWith u "https://" then u
           else "https://" ++ u
  if jsStartsWith p "https://" && !(jsIncludes p ".") && !(jsIncludes p "localhost") then
    jsReplaceFirst p "https://" "https://www."
  else if jsStartsWith p "https://" && (jsSplitChar '.' p).length == 2 &&
      !(jsIncludes p "localhost") then
    let domain := jsReplaceFirst p "https://" ""
    if (jsSplitChar '.' domain).length == 2 then "https://www." ++ domain else p
  else p

/-- Weakness record as typed in the frontend (App.tsx lines 4 to 9): the
severity is a string. -/
structure Weakness where
  title : String
  description : String
  severity : String
  category : String
deriving DecidableEq, Repr

/-- Analysis result as typed in the frontend (App.tsx lines 11 to 17). -/
structure AnalysisResult where
  competitor_name : String
  target_url : String
  weaknesses : List Weakness
  analyzed_at : String
  raw_content_length : Nat
deriving DecidableEq, Repr

/-- The three navigation tabs (App.tsx line 24). -/
inductive Tab where
  | analyzeTab
  | resultsTab
  | faqTab
deriving DecidableEq, Repr

/-- Component state relevant to `handleAnalyze` (App.tsx lines 20 to 32). -/
structure UIState where
  competitorName : String
  targetUrl : String
  model : String
  analysisResult : Option AnalysisResult
  activeTab : Tab
  error : Option String
  isAnalyzing : Bool
deriving DecidableEq, Repr

/-- Body of the `POST /analyze` request (App.tsx lines 89 to 93). -/
structure PostBody where
  competitor_name : String
  target_url : String
  model : String
deriving DecidableEq, Repr

/-- Synchronous pre-request phase of `handleAnalyze` (App.tsx lines 39 to 94):
the empty-after-trimming check, URL auto-completion, URL validation through
the browser URL constructor (oracle `validURL`), the state updates, and the
request body when a request is issued (`none` when the handler returns
early). The body is built from the closure variables, so `target_url` is the
trimmed original input even when the deferred `setTargetUrl(processedUrl)`
update was scheduled. -/
def handleAnalyze (validURL : String → Bool) (st : UIState) :
    UIState × Option PostBody :=
  if jsTrim st.competitorName == "" || jsTrim st.targetUrl == "" then
    ({ st with error := some "Please fill in both competitor name and website URL" },
     none)
  else
    let processedUrl := processUrl (jsTrim st.targetUrl)
    if !(validURL processedUrl) then
      ({ st with error := some "Invalid URL format. Please enter a valid website URL." },
       none)
    else
      let st₁ := if processedUrl != st.targetUrl then
                   { st with targetUrl := processedUrl }
                 else st
      ({ st₁ with isAnalyzing := true, analysisResult := none, error := none },
       some ⟨jsTrim st.competitorName, jsTrim st.targetUrl, st.model⟩)

/-! ### CSV export (App.tsx lines 130 to 151) -/

/-- JavaScript `Array.prototype.join`. -/
def jsJoin (sep : String) : List String → String
  | [] => ""
  | [x] => x
  | x :: y :: rest => x ++ sep ++ jsJoin sep (y :: rest)

/-- The global newline replacement applied to descriptions (App.tsx
line 136): every newline character becomes a space. -/
def replaceNewlines (s : String) : String :=
  ⟨s.data.map (fun c => if c == '\n' then ' ' else c)⟩

/-- The global quote doubling applied to every cell (App.tsx line 140):
every double-quote character becomes two. -/
def escapeQuotes (s : String) : String :=
  ⟨s.data.flatMap (fun c => if c == '"' then ['"', '"'] else [c])⟩

/-- One CSV cell: the escaped content enclosed in double quotes. -/
def csvCell (c : String) : String :=
  "\"" ++ escapeQuotes c ++ "\""

/-- One CSV line: the quoted cells joined with commas. -/
def csvRow (cells : List String) : String :=
  jsJoin "," (cells.map csvCell)

/-- The fixed header row (App.tsx line 132). -/
def csvHeaders : List String :=
  ["#", "Title", "Description", "Severity", "Category"]

/-- The csvContent string built by `exportCSV` (App.tsx lines 130 to 141):
`none` when no analysis result is present (the handler returns without
action), otherwise the header row and one row per weakness, each row carrying
the 1-based index, title, newline-stripped description, severity and
category, all lines joined with newlines. -/
def exportCSV (r : Option AnalysisResult) : Option String :=
  match r with
  | none => none
  | some a =>
    let rows := a.weaknesses.enum.map (fun p =>
      [toString (p.1 + 1), p.2.title, replaceNewlines p.2.description,
       p.2.severity, p.2.category])
    some (jsJoin "\n" ((csvHeaders :: rows).map csvRow))

/-! ### Model selection state (App.tsx lines 26 to 37 and 200 to 224) -/

/-- A model dropdown entry (App.tsx line 33). -/
structure ModelOption where
  id : String
  name : String
  daily : String
  note : Option String
deriving DecidableEq, Repr

/-- The bundled model list (App.tsx lines 33 to 37). -/
def initialModelOptions : List ModelOption :=
  [⟨"gemini-2.5-flash", "Gemini 2.5 Flash", "20", some "Severely limited"⟩,
   ⟨"gemini-2.5-flash-lite", "Gemini 2.5 Flash-Lite", "1,500",
    some "Recommended for Free Tier"⟩,
   ⟨"gemini-2.5-pro", "Gemini 2.5 Pro", "0 - 5",
    some "Often removed or restricted"⟩]

/-- JavaScript truthiness test applied to the stored value: `null` (absent)
and the empty string are falsy. -/
def jsFalsy : Option String → Bool
  | none => true
  | some v => v == ""

/-- Initial selected model (App.tsx lines 26 to 32): the stored
`preferred_model` value when truthy, else the built-in default. -/
def initModel (stored : Option String) : String :=
  match stored with
  | none => "gemini-2.5-flash-lite"
  | some v => if v == "" then "gemini-2.5-flash-lite" else v

/-- Outcome of the mount-time GET /models request (App.tsx lines 200 to 224):
network failure, non-ok status, ok body with a missing or non-array `models`
field, or ok body with a parsed `models` array. -/
inductive ModelsFetchOutcome where
  | failed
  | notOk
  | okNoArray
  | okList (ms : List ModelOption)
deriving DecidableEq, Repr

/-- The mount-time effect on `(modelOptions, model)` (App.tsx lines 200 to
224): only an ok response with a non-empty array replaces the options, and
the selected model is set to the first entry exactly when the stored
`preferred_model` is falsy; in every other case both keep their initial
values. -/
def modelsEffect (outcome : ModelsFetchOutcome) (stored : Option String) :
    List ModelOption × String :=
  match outcome with
  | .okList (m :: rest) =>
      (m :: rest, if jsFalsy stored then m.id else initModel stored)
  | _ => (initialModelOptions, initModel stored)

end Frontend

/-! ## Theorems -/

/-- C1: a requested model id outside the allow-list makes `resolve`, and hence
`analyze`, fail with `InvalidModel`, a client error, and the `Generated`
stage is never reached; an allow-listed id is returned unchanged with
`usedFallback = false`. -/
theorem resolve_allowlist_policy :
    (∀ (reg : Registry) (id : String), id ∈ reg.allowList →
      resolve reg id = .ok (id, false)) ∧
    (∀ (reg : Registry) (id : String), id ∉ reg.allowList →
      resolve reg id = .error .InvalidModel ∧ isClientError .InvalidModel = true) ∧
    (∀ (reg : Registry) fetchO provider scan saveO
       (cn url id : String) (now : Nat), id ∉ reg.allowList →
      (analyze reg fetchO provider scan saveO cn url id now).1 =
        .error .InvalidModel ∧
      Stage.Generated ∉ (analyze reg fetchO provider scan saveO cn url id now).2) := by
  refine ⟨?_, ?_, ?_⟩
  · intro reg id h
    simp [resolve, h]
  · intro reg id h
    simp [resolve, h, isClientError]
  · intro reg fetchO provider scan saveO cn url id now h
    simp [analyze, resolve, h]

/-- C1 witness: with allow-list `["a", "b"]`, the id `"a"` resolves to itself
without fallback, and the id `"c"` makes `resolve` and `analyze` fail with
the client error `InvalidModel` without reaching the `Generated` stage. -/
theorem resolve_allowlist_policy_witness :
    resolve ⟨["a", "b"], "a"⟩ "a" = .ok ("a", false) ∧
    (resolve ⟨["a", "b"], "a"⟩ "c" = .error .InvalidModel ∧
      isClientError .InvalidModel = true) ∧
    ((analyze ⟨["a", "b"], "a"⟩ (fun _ => .ok ⟨"t", 1⟩) (fun _ _ => .ok "r")
        (fun _ => []) (fun _ _ _ => .ok 0) "Acme" "https://acme.example" "c" 0).1 =
        .error .InvalidModel ∧
      Stage.Generated ∉
        (analyze ⟨["a", "b"], "a"⟩ (fun _ => .ok ⟨"t", 1⟩) (fun _ _ => .ok "r")
          (fun _ => []) (fun _ _ _ => .ok 0) "Acme" "https://acme.example" "c" 0).2) :=
  ⟨resolve_allowlist_policy.1 ⟨["a", "b"], "a"⟩ "a" (by decide),
   resolve_allowlist_policy.2.1 ⟨["a", "b"], "a"⟩ "c" (by decide),
   resolve_allowlist_policy.2.2 ⟨["a", "b"], "a"⟩ _ _ _ _ "Acme"
     "https://acme.example" "c" 0 (by decide)⟩

/-- C2: when the provider fails on the requested (allow-listed) id, `generate`
retries exactly once with the registry default if the id differs from the
default (attempts list `[id, default]`, whatever the outcome of the retry),
makes no retry if the id equals the default (attempts list `[id]`), and when
all attempts fail it returns `GenerationUnavailable` carrying exactly the
attempted ids. -/
theorem generate_fallback_policy (reg : Registry)
    (provider : String → String → Except ProviderError String)
    (prompt eff : String) (pe : ProviderError)
    (hfail : provider prompt eff = .error pe) :
    (eff ≠ reg.defaultId →
      (generate reg provider prompt eff).2 = [eff, reg.defaultId] ∧
      (∀ pe₂, provider prompt reg.defaultId = .error pe₂ →
        (generate reg provider prompt eff).1 =
          .error (.GenerationUnavailable [eff, reg.defaultId])) ∧
      (∀ t, provider prompt reg.defaultId = .ok t →
        (generate reg provider prompt eff).1 = .ok t)) ∧
    (eff = reg.defaultId →
      (generate reg provider prompt eff).2 = [eff] ∧
      (generate reg provider prompt eff).1 =
        .error (.GenerationUnavailable [eff])) := by
  constructor
  · intro hne
    refine ⟨?_, ?_, ?_⟩
    · cases hdef : provider prompt reg.defaultId <;>
        simp [generate, hfail, hdef, hne]
    · intro pe₂ hdef
      simp [generate, hfail, hdef, hne]
    · intro t hdef
      simp [generate, hfail, hdef, hne]
  · intro heq
    subst heq
    constructor <;> simp [generate, hfail]

/-- C2 witness: with default `"d"`, a provider failing on every model: the
requested id `"m"` is retried once with `"d"` and the failure is
`GenerationUnavailable ["m", "d"]`; the requested id `"d"` is not retried and
the failure is `GenerationUnavailable ["d"]`. -/
theorem generate_fallback_policy_witness :
    ((generate ⟨["m", "d"], "d"⟩ (fun _ _ => .error .quotaExceeded) "p" "m").2 =
        ["m", "d"] ∧
      (generate ⟨["m", "d"], "d"⟩ (fun _ _ => .error .quotaExceeded) "p" "m").1 =
        .error (.GenerationUnavailable ["m", "d"])) ∧
    ((generate ⟨["m", "d"], "d"⟩ (fun _ _ => .error .quotaExceeded) "p" "d").2 =
        ["d"] ∧
      (generate ⟨["m", "d"], "d"⟩ (fun _ _ => .error .quotaExceeded) "p" "d").1 =
        .error (.GenerationUnavailable ["d"])) := by
  have h₁ := (generate_fallback_policy ⟨["m", "d"], "d"⟩
    (fun _ _ => .error .quotaExceeded) "p" "m" .quotaExceeded rfl).1 (by decide)
  have h₂ := (generate_fallback_policy ⟨["m", "d"], "d"⟩
    (fun _ _ => .error .quotaExceeded) "p" "d" .quotaExceeded rfl).2 rfl
  exact ⟨⟨h₁.1, h₁.2.1 .quotaExceeded rfl⟩, h₂⟩

/-- An entry is dropped by the per-entry policy exactly when its title or its
description is missing. -/
theorem parseEntry_eq_none_iff (e : RawEntry) :
    parseEntry e = none ↔ (e.title = none ∨ e.description = none) := by
  obtain ⟨t, d, s, c⟩ := e
  cases t <;> cases d <;> simp [parseEntry]

/-- An unrecognized (or missing) severity token normalizes to `low`. -/
theorem normalizeSeverity_unrecognized (s : String)
    (h₁ : s ≠ "high") (h₂ : s ≠ "medium") (h₃ : s ≠ "low") :
    normalizeSeverity (some s) = .low := by
  unfold normalizeSeverity
  split <;> simp_all

/-- C3: the per-entry policy drops exactly the candidate entries missing title
or description without failing the whole parse, keeps an entry with an
unrecognized severity token with severity `low`, keeps an entry missing
category with category `"General"`, preserves the relative order of kept
entries, and every returned weakness has severity among high, medium and low;
in particular three well-formed entries plus one entry missing a title parse
to exactly those three weaknesses in order. -/
theorem parse_entry_tolerance :
    (∀ e : RawEntry, parseEntry e = none ↔ (e.title = none ∨ e.description = none)) ∧
    (∀ (scan : String → List RawEntry) (raw : String) (ws : List Weakness),
      parse scan raw = .ok ws → ∀ w ∈ ws,
        w.severity = .high ∨ w.severity = .medium ∨ w.severity = .low) ∧
    (∀ (e : RawEntry) (t d s : String), e.title = some t → e.description = some d →
      e.severity = some s → s ≠ "high" → s ≠ "medium" → s ≠ "low" →
      parseEntry e = some ⟨t, d, .low, e.category.getD "General"⟩) ∧
    (∀ (e : RawEntry) (t d : String), e.title = some t → e.description = some d →
      e.category = none →
      parseEntry e = some ⟨t, d, normalizeSeverity e.severity, "General"⟩) ∧
    (∀ (scan : String → List RawEntry) (raw : String) (e₁ e₂ b e₃ : RawEntry)
       (w₁ w₂ w₃ : Weakness),
      parseEntry e₁ = some w₁ → parseEntry e₂ = some w₂ → parseEntry e₃ = some w₃ →
      b.title = none → scan raw = [e₁, e₂, b, e₃] →
      parse scan raw = .ok [w₁, w₂, w₃]) := by
  refine ⟨parseEntry_eq_none_iff, ?_, ?_, ?_, ?_⟩
  · intro scan raw ws _ w _
    cases w.severity <;> simp
  · intro e t d s ht hd hs h₁ h₂ h₃
    simp [parseEntry, ht, hd, hs, normalizeSeverity_unrecognized s h₁ h₂ h₃]
  · intro e t d ht hd hc
    simp [parseEntry, ht, hd, hc]
  · intro scan raw e₁ e₂ b e₃ w₁ w₂ w₃ h₁ h₂ h₃ hb hscan
    have hbnone : parseEntry b = none := (parseEntry_eq_none_iff b).2 (Or.inl hb)
    simp [parse, hscan, List.filterMap, h₁, h₂, h₃, hbnone]

/-- C3 witness: the concrete response with three well-formed entries (one with
an unrecognized severity token and a missing category) and one entry missing a
title parses to exactly the three corresponding weaknesses in order. -/
theorem parse_entry_tolerance_witness :
    parse (fun _ =>
        [⟨some "t1", some "d1", some "high", some "Pricing"⟩,
         ⟨some "t2", some "d2", some "severe", none⟩,
         ⟨none, some "db", some "high", some "X"⟩,
         ⟨some "t3", some "d3", some "medium", some "Support"⟩]) "raw" =
      .ok [⟨"t1", "d1", .high, "Pricing"⟩, ⟨"t2", "d2", .low, "General"⟩,
           ⟨"t3", "d3", .medium, "Support"⟩] :=
  parse_entry_tolerance.2.2.2.2 _ "raw"
    ⟨some "t1", some "d1", some "high", some "Pricing"⟩
    ⟨some "t2", some "d2", some "severe", none⟩
    ⟨none, some "db", some "high", some "X"⟩
    ⟨some "t3", some "d3", some "medium", some "Support"⟩
    _ _ _ rfl rfl rfl rfl rfl

/-- C4: when zero valid entries can be extracted from non-empty raw text,
`parse` fails with `UnparseableResponse`; `parse` never returns a successful
empty sequence; and the same failure propagates through `analyze` when the
pipeline reaches the parsing stage with such a text. -/
theorem parse_unparseable_policy :
    (∀ (scan : String → List RawEntry) (raw : String), raw ≠ "" →
      (scan raw).filterMap parseEntry = [] →
      parse scan raw = .error .UnparseableResponse) ∧
    (∀ (scan : String → List RawEntry) (raw : String) (ws : List Weakness),
      parse scan raw = .ok ws → ws ≠ []) ∧
    (∀ (reg : Registry) fetchO provider scan saveO (cn url id : String)
       (now : Nat) (eff : String) (ufb : Bool) (fr : FetchResult) (raw : String),
      resolve reg id = .ok (eff, ufb) →
      fetchO url = .ok fr →
      (generate reg provider (render cn fr.text) eff).1 = .ok raw →
      raw ≠ "" →
      (scan raw).filterMap parseEntry = [] →
      (analyze reg fetchO provider scan saveO cn url id now).1 =
        .error .UnparseableResponse) := by
  refine ⟨?_, ?_, ?_⟩
  · intro scan raw _ hzero
    simp [parse, hzero]
  · intro scan raw ws h
    unfold parse at h
    by_cases hemp : ((scan raw).filterMap parseEntry).isEmpty
    · simp [hemp] at h
    · simp [hemp] at h
      intro hnil
      rw [hnil] at h
      rw [h] at hemp
      simp at hemp
  · intro reg fetchO provider scan saveO cn url id now eff ufb fr raw
      h₁ h₂ h₃ _ h₅
    simp [analyze, h₁, h₂, h₃, parse, h₅]

/-- C4 witness: a non-empty raw text whose only candidate entry misses the
title yields the `UnparseableResponse` failure. -/
theorem parse_unparseable_policy_witness :
    "junk" ≠ "" ∧
    parse (fun _ => [⟨none, some "d", some "high", some "c"⟩]) "junk" =
      .error .UnparseableResponse :=
  ⟨by decide,
   parse_unparseable_policy.1 (fun _ => [⟨none, some "d", some "high", some "c"⟩])
     "junk" (by decide) rfl⟩

/-- C5: once the pipeline has reached the `Parsed` state, the outcome of the
Persistence Gateway never discards or alters the computed result: for every
save oracle, `analyze` still reaches `Done` and returns the same successful
`AnalysisResult` built from the parsed weaknesses. -/
theorem persistence_failure_nonfatal (reg : Registry)
    (fetchO : String → Except AnalyzeError FetchResult)
    (provider : String → String → Except ProviderError String)
    (scan : String → List RawEntry)
    (cn url id : String) (now : Nat) (eff : String) (ufb : Bool)
    (fr : FetchResult) (raw : String) (ws : List Weakness)
    (h₁ : resolve reg id = .ok (eff, ufb))
    (h₂ : fetchO url = .ok fr)
    (h₃ : (generate reg provider (render cn fr.text) eff).1 = .ok raw)
    (h₄ : parse scan raw = .ok ws) :
    ∀ saveO : String → String → List Weakness → Except String Nat,
      (analyze reg fetchO provider scan saveO cn url id now).1 =
        .ok ⟨cn, url, ws, now, fr.length⟩ ∧
      Stage.Done ∈ (analyze reg fetchO provider scan saveO cn url id now).2 := by
  intro saveO
  cases hs : saveO cn url ws <;>
    simp [analyze, h₁, h₂, h₃, h₄, hs]

/-- C5 witness: a concrete run whose save oracle always fails still returns
the successful result of the parsed weaknesses and reaches `Done`. -/
theorem persistence_failure_nonfatal_witness :
    (analyze ⟨["m"], "m"⟩ (fun _ => .ok ⟨"text", 5⟩) (fun _ _ => .ok "raw")
        (fun _ => [⟨some "t", some "d", some "low", some "c"⟩])
        (fun _ _ _ => .error "db down") "Acme" "https://acme.example" "m" 7).1 =
      .ok ⟨"Acme", "https://acme.example", [⟨"t", "d", .low, "c"⟩], 7, 5⟩ ∧
    Stage.Done ∈
      (analyze ⟨["m"], "m"⟩ (fun _ => .ok ⟨"text", 5⟩) (fun _ _ => .ok "raw")
        (fun _ => [⟨some "t", some "d", some "low", some "c"⟩])
        (fun _ _ _ => .error "db down") "Acme" "https://acme.example" "m" 7).2 :=
  persistence_failure_nonfatal ⟨["m"], "m"⟩ (fun _ => .ok ⟨"text", 5⟩)
    (fun _ _ => .ok "raw") (fun _ => [⟨some "t", some "d", some "low", some "c"⟩])
    "Acme" "https://acme.example" "m" 7 "m" false ⟨"text", 5⟩ "raw"
    [⟨"t", "d", .low, "c"⟩]
    (by simp [resolve]) rfl rfl rfl (fun _ _ _ => .error "db down")

theorem updateRow_name (name url : String) (now : Nat) (c : Competitor) :
    (updateRow name url now c).name = c.name := by
  unfold updateRow
  split <;> rfl

theorem updateRow_id (name url : String) (now : Nat) (c : Competitor) :
    (updateRow name url now c).id = c.id := by
  unfold updateRow
  split <;> rfl

theorem updateRow_comp (name url₁ url₂ : String) (now₁ now₂ : Nat) :
    updateRow name url₂ now₂ ∘ updateRow name url₁ now₁ =
      updateRow name url₂ now₂ := by
  funext c
  unfold updateRow
  by_cases h : c.name = name <;> simp [h]

theorem updateRow_pred (name url : String) (now : Nat) :
    ((fun x : Competitor => x.name == name) ∘ updateRow name url now) =
      (fun x : Competitor => x.name == name) := by
  funext x
  simp [updateRow_name]

/-- In a store whose competitor names are pairwise distinct, a name that
occurs has exactly one row. -/
theorem filter_name_length_one {l : List Competitor} {c : Competitor}
    {name : String} (hwf : l.Pairwise (fun a b => a.name ≠ b.name))
    (hc : c ∈ l) (hname : c.name = name) :
    (l.filter (fun x => x.name == name)).length = 1 := by
  induction l with
  | nil => cases hc
  | cons a l ih =>
    rw [List.pairwise_cons] at hwf
    cases hc with
    | head =>
      rw [List.filter_cons_of_pos (by simp [hname])]
      have : l.filter (fun x => x.name == name) = [] := by
        rw [List.filter_eq_nil_iff]
        intro x hx
        have := hwf.1 x hx
        rw [hname] at this
        simp [this.symm]
      simp [this]
    | tail _ hc' =>
      have hne : a.name ≠ name := by
        have := hwf.1 c hc'
        rw [hname] at this
        exact this
      rw [List.filter_cons_of_neg (by simp [hne])]
      exact ih hwf.2 hc'

/-- In a list of pairwise distinct names, two members with the same name are
the same row. -/
theorem eq_of_mem_name_unique {l : List Competitor} {x c : Competitor}
    {name : String} (hwf : l.Pairwise (fun a b => a.name ≠ b.name))
    (hx : x ∈ l) (hc : c ∈ l) (hxn : x.name = name) (hcn : c.name = name) :
    x = c := by
  induction l with
  | nil => cases hx
  | cons a l ih =>
    rw [List.pairwise_cons] at hwf
    cases hx with
    | head =>
      cases hc with
      | head => rfl
      | tail _ hc' => exact absurd (hxn.trans hcn.symm) (hwf.1 c hc')
    | tail _ hx' =>
      cases hc with
      | head => exact absurd (hcn.trans hxn.symm) (hwf.1 x hx')
      | tail _ hc' => exact ih hwf.2 hx' hc'

/-- C6: starting from a store with pairwise distinct competitor names, two
`save` calls with the same name and different urls return the same competitor
id, leave exactly one row with that name, that row carrying the latest
`targetUrl` and the shared id, and the insight rows of both calls all remain,
each referencing that single id. -/
theorem save_upsert_idempotent (s : Store) (now₁ now₂ : Nat)
    (name url₁ url₂ : String) (ws₁ ws₂ : List Weakness)
    (hwf : s.competitors.Pairwise (fun a b => a.name ≠ b.name)) :
    (save (save s now₁ name url₁ ws₁).2 now₂ name url₂ ws₂).1 =
      (save s now₁ name url₁ ws₁).1 ∧
    ((save (save s now₁ name url₁ ws₁).2 now₂ name url₂ ws₂).2.competitors.filter
        (fun c => c.name == name)).length = 1 ∧
    (∀ c ∈ (save (save s now₁ name url₁ ws₁).2 now₂ name url₂ ws₂).2.competitors,
      c.name = name → c.targetUrl = url₂ ∧ c.id = (save s now₁ name url₁ ws₁).1) ∧
    (save (save s now₁ name url₁ ws₁).2 now₂ name url₂ ws₂).2.insights =
      s.insights ++ insightRows (save s now₁ name url₁ ws₁).1 ws₁ ++
        insightRows (save s now₁ name url₁ ws₁).1 ws₂ := by
  cases hfind : s.competitors.find? (fun c => c.name == name) with
  | none =>
    have hall : ∀ x ∈ s.competitors, ¬(x.name == name) = true :=
      List.find?_eq_none.mp hfind
    have h₁ : save s now₁ name url₁ ws₁ =
        (s.nextId,
         ⟨s.nextId + 1, s.competitors ++ [⟨s.nextId, name, url₁, now₁, now₁⟩],
          s.insights ++ insightRows s.nextId ws₁⟩) := by
      simp [save, hfind]
    have hfind₂ :
        (s.competitors ++ [(⟨s.nextId, name, url₁, now₁, now₁⟩ : Competitor)]).find?
          (fun c => c.name == name) =
          some ⟨s.nextId, name, url₁, now₁, now₁⟩ := by
      rw [List.find?_append, hfind]
      simp
    have hmapid : s.competitors.map (updateRow name url₂ now₂) = s.competitors := by
      have hcg : s.competitors.map (updateRow name url₂ now₂) =
          s.competitors.map id := by
        apply List.map_congr_left
        intro a ha
        have hne : ¬ a.name = name := by simpa using hall a ha
        simp [updateRow, hne]
      rw [hcg, List.map_id]
    have h₂ : save (save s now₁ name url₁ ws₁).2 now₂ name url₂ ws₂ =
        (s.nextId,
         ⟨s.nextId + 1,
          s.competitors ++ [⟨s.nextId, name, url₂, now₁, now₂⟩],
          (s.insights ++ insightRows s.nextId ws₁) ++ insightRows s.nextId ws₂⟩) := by
      rw [h₁]
      simp [save, hfind₂, hmapid, updateRow]
    refine ⟨by rw [h₂, h₁], ?_, ?_, ?_⟩
    · rw [h₂]
      have hnil : s.competitors.filter (fun c => c.name == name) = [] :=
        List.filter_eq_nil_iff.mpr hall
      simp [List.filter_append, hnil]
    · rw [h₂, h₁]
      intro c hc hcn
      rcases List.mem_append.mp hc with h | h
      · exact absurd (by simp [hcn]) (hall c h)
      · have : c = ⟨s.nextId, name, url₂, now₁, now₂⟩ := by simpa using h
        rw [this]
        exact ⟨rfl, rfl⟩
    · rw [h₂, h₁]
  | some c =>
    have hpc : c.name = name := by
      have := List.find?_some hfind
      simpa using this
    have hcmem : c ∈ s.competitors := List.mem_of_find?_eq_some hfind
    have h₁ : save s now₁ name url₁ ws₁ =
        (c.id,
         ⟨s.nextId, s.competitors.map (updateRow name url₁ now₁),
          s.insights ++ insightRows c.id ws₁⟩) := by
      simp [save, hfind]
    have hfind₂ : (s.competitors.map (updateRow name url₁ now₁)).find?
        (fun x => x.name == name) = some (updateRow name url₁ now₁ c) := by
      rw [List.find?_map, updateRow_pred, hfind]
      rfl
    have h₂ : save (save s now₁ name url₁ ws₁).2 now₂ name url₂ ws₂ =
        (c.id,
         ⟨s.nextId, s.competitors.map (updateRow name url₂ now₂),
          (s.insights ++ insightRows c.id ws₁) ++ insightRows c.id ws₂⟩) := by
      rw [h₁]
      simp [save, hfind₂, List.map_map, updateRow_comp, updateRow_id]
    refine ⟨by rw [h₂, h₁], ?_, ?_, ?_⟩
    · rw [h₂]
      have hfm : (s.competitors.map (updateRow name url₂ now₂)).filter
          (fun x => x.name == name) =
          (s.competitors.filter (fun x => x.name == name)).map
            (updateRow name url₂ now₂) := by
        rw [List.filter_map, updateRow_pred]
      simp only [hfm, List.length_map]
      exact filter_name_length_one hwf hcmem hpc
    · rw [h₂, h₁]
      intro c' hc' hcn'
      rcases List.mem_map.mp hc' with ⟨x, hx, hfx⟩
      by_cases hxn : x.name = name
      · have hxc : x = c := eq_of_mem_name_unique hwf hx hcmem hxn hpc
        rw [← hfx]
        constructor
        · simp [updateRow, hxn]
        · rw [updateRow_id, hxc]
      · have hid : updateRow name url₂ now₂ x = x := by simp [updateRow, hxn]
        rw [hid] at hfx
        rw [← hfx] at hcn'
        exact absurd hcn' hxn
    · rw [h₂, h₁]

/-- C6 witness: from the empty store, saving "Acme" twice with different urls
and one weakness each leaves one Competitor row with the latest url and both
insight rows referencing it. -/
theorem save_upsert_idempotent_witness :
    (save (save ⟨0, [], []⟩ 1 "Acme" "https://a.example"
        [⟨"t1", "d1", .high, "Pricing"⟩]).2 2 "Acme" "https://b.example"
        [⟨"t2", "d2", .low, "General"⟩]).1 =
      (save ⟨0, [], []⟩ 1 "Acme" "https://a.example"
        [⟨"t1", "d1", .high, "Pricing"⟩]).1 ∧
    ((save (save ⟨0, [], []⟩ 1 "Acme" "https://a.example"
        [⟨"t1", "d1", .high, "Pricing"⟩]).2 2 "Acme" "https://b.example"
        [⟨"t2", "d2", .low, "General"⟩]).2.competitors.filter
        (fun c => c.name == "Acme")).length = 1 ∧
    (∀ c ∈ (save (save ⟨0, [], []⟩ 1 "Acme" "https://a.example"
        [⟨"t1", "d1", .high, "Pricing"⟩]).2 2 "Acme" "https://b.example"
        [⟨"t2", "d2", .low, "General"⟩]).2.competitors,
      c.name = "Acme" → c.targetUrl = "https://b.example" ∧
        c.id = (save ⟨0, [], []⟩ 1 "Acme" "https://a.example"
          [⟨"t1", "d1", .high, "Pricing"⟩]).1) ∧
    (save (save ⟨0, [], []⟩ 1 "Acme" "https://a.example"
        [⟨"t1", "d1", .high, "Pricing"⟩]).2 2 "Acme" "https://b.example"
        [⟨"t2", "d2", .low, "General"⟩]).2.insights =
      ([] : List Insight) ++
        insightRows (save ⟨0, [], []⟩ 1 "Acme" "https://a.example"
          [⟨"t1", "d1", .high, "Pricing"⟩]).1 [⟨"t1", "d1", .high, "Pricing"⟩] ++
        insightRows (save ⟨0, [], []⟩ 1 "Acme" "https://a.example"
          [⟨"t1", "d1", .high, "Pricing"⟩]).1 [⟨"t2", "d2", .low, "General"⟩] :=
  save_upsert_idempotent ⟨0, [], []⟩ 1 2 "Acme" "https://a.example"
    "https://b.example" [⟨"t1", "d1", .high, "Pricing"⟩]
    [⟨"t2", "d2", .low, "General"⟩] (by simp)

namespace Frontend

/-- C7: the claim says the POST body carries the normalized URL; the code
instead builds the body from the stale closure variable. For the input url
"samsung.com" the computed normalization is "https://www.samsung.com", yet
the submitted `target_url` is "samsung.com", which starts with neither
protocol prefix. -/
theorem handleAnalyze_posts_unnormalized_url :
    processUrl "samsung.com" = "https://www.samsung.com" ∧
    (handleAnalyze (fun _ => true)
        ⟨"Acme", "samsung.com", "gemini-2.5-flash-lite", none, .analyzeTab,
         none, false⟩).2 =
      some ⟨"Acme", "samsung.com", "gemini-2.5-flash-lite"⟩ ∧
    (jsStartsWith "samsung.com" "http://" ||
      jsStartsWith "samsung.com" "https://") = false := by
  refine ⟨by decide, by decide, by decide⟩

/-- C8: when a trimmed input is empty, `handleAnalyze` only sets the error
message and issues no request, leaving `analysisResult` and the active tab
unchanged; and a request is only ever issued when both trimmed inputs are
non-empty and the processed URL passes the URL-constructor validation. -/
theorem handleAnalyze_validation :
    (∀ (validURL : String → Bool) (st : UIState),
      jsTrim st.competitorName = "" ∨ jsTrim st.targetUrl = "" →
      handleAnalyze validURL st =
        ({ st with error := some "Please fill in both competitor name and website URL" },
         none) ∧
      (handleAnalyze validURL st).1.analysisResult = st.analysisResult ∧
      (handleAnalyze validURL st).1.activeTab = st.activeTab) ∧
    (∀ (validURL : String → Bool) (st : UIState) (b : PostBody),
      (handleAnalyze validURL st).2 = some b →
      jsTrim st.competitorName ≠ "" ∧ jsTrim st.targetUrl ≠ "" ∧
      validURL (processUrl (jsTrim st.targetUrl)) = true) := by
  constructor
  · intro validURL st h
    have hcond : (jsTrim st.competitorName == "" || jsTrim st.targetUrl == "") = true := by
      rcases h with h | h <;> simp [h]
    refine ⟨?_, ?_, ?_⟩ <;> simp [handleAnalyze, hcond]
  · intro validURL st b h
    by_cases h₁ : (jsTrim st.competitorName == "" || jsTrim st.targetUrl == "") = true
    · simp [handleAnalyze, h₁] at h
    · by_cases h₂ : validURL (processUrl (jsTrim st.targetUrl)) = true
      · have h₁' : ¬ jsTrim st.competitorName = "" ∧ ¬ jsTrim st.targetUrl = "" := by
          simpa using h₁
        exact ⟨h₁'.1, h₁'.2, h₂⟩
      · have h₂' : validURL (processUrl (jsTrim st.targetUrl)) = false :=
          Bool.not_eq_true _ ▸ eq_false_of_ne_true h₂
        simp [handleAnalyze, h₁, h₂'] at h

/-- C8 witness: an empty competitor name only sets the error and issues no
request; a filled-in form with an accepting URL validator issues a request,
so both trimmed inputs were non-empty and the processed URL was accepted. -/
theorem handleAnalyze_validation_witness :
    (handleAnalyze (fun _ => true)
        ⟨"", "samsung.com", "m", none, .analyzeTab, none, false⟩ =
      ({ competitorName := "", targetUrl := "samsung.com", model := "m",
         analysisResult := none, activeTab := .analyzeTab,
         error := some "Please fill in both competitor name and website URL",
         isAnalyzing := false }, none)) ∧
    (jsTrim "Acme" ≠ "" ∧ jsTrim "samsung.com" ≠ "" ∧
      (fun _ : String => true) (processUrl (jsTrim "samsung.com")) = true) :=
  ⟨(handleAnalyze_validation.1 (fun _ => true)
      ⟨"", "samsung.com", "m", none, .analyzeTab, none, false⟩
      (Or.inl (by decide))).1,
   handleAnalyze_validation.2 (fun _ => true)
      ⟨"Acme", "samsung.com", "m", none, .analyzeTab, none, false⟩
      ⟨"Acme", "samsung.com", "m"⟩ (by decide)⟩


/-- Doubling every quote character doubles the quote count. -/
theorem count_flatMap_quote (l : List Char) :
    (l.flatMap (fun c => if c == '"' then ['"', '"'] else [c])).count '"' =
      2 * l.count '"' := by
  induction l with
  | nil => rfl
  | cons c l ih =>
    rw [List.flatMap_cons, List.count_append, ih]
    by_cases h : c = '"'
    · subst h
      simp [List.count_cons]
      try omega
    · have h' : ¬ ('"' = c) := fun e => h e.symm
      simp [List.count_cons, h, h']
      try omega

/-- The newline-to-space map leaves no newline character. -/
theorem no_newline_after_map (l : List Char) :
    '\n' ∉ l.map (fun c => if c == '\n' then ' ' else c) := by
  intro hmem
  rcases List.mem_map.mp hmem with ⟨c, _, hc⟩
  by_cases h : c = '\n'
  · subst h
    rw [if_pos (by simp)] at hc
    exact absurd hc (by decide)
  · rw [if_neg (by simp [h])] at hc
    exact h hc

/-- C9: `exportCSV` yields nothing when no result is present; otherwise the
produced text is the newline join of the fixed header row followed by exactly
one row per weakness in stored order, the row of weakness `i` carrying the
1-based index `i + 1` in its first cell; every cell is enclosed in double
quotes with its double quotes doubled, and newline characters in descriptions
are replaced by spaces. -/
theorem exportCSV_structure :
    exportCSV none = none ∧
    (∀ s : String, (escapeQuotes s).data.count '"' = 2 * s.data.count '"') ∧
    (∀ s : String, (csvCell s).data = '"' :: ((escapeQuotes s).data ++ ['"'])) ∧
    (∀ s : String, '\n' ∉ (replaceNewlines s).data) ∧
    (∀ a : AnalysisResult, ∃ lines : List String,
      exportCSV (some a) = some (jsJoin "\n" lines) ∧
      lines.length = a.weaknesses.length + 1 ∧
      lines.head? = some (csvRow csvHeaders) ∧
      ∀ (i : Nat) (h : i < a.weaknesses.length),
        lines.get? (i + 1) = some (csvRow
          [toString (i + 1), (a.weaknesses.get ⟨i, h⟩).title,
           replaceNewlines (a.weaknesses.get ⟨i, h⟩).description,
           (a.weaknesses.get ⟨i, h⟩).severity,
           (a.weaknesses.get ⟨i, h⟩).category])) := by
  refine ⟨rfl, ?_, ?_, ?_, ?_⟩
  · intro s
    obtain ⟨l⟩ := s
    exact count_flatMap_quote l
  · intro s
    obtain ⟨l⟩ := s
    rfl
  · intro s
    obtain ⟨l⟩ := s
    exact no_newline_after_map l
  · intro a
    refine ⟨(csvHeaders :: a.weaknesses.enum.map (fun p =>
        [toString (p.1 + 1), p.2.title, replaceNewlines p.2.description,
         p.2.severity, p.2.category])).map csvRow, ?_, ?_, ?_, ?_⟩
    · rfl
    · simp [List.length_map, List.enum_length]
    · rfl
    · intro i h
      have h₁ : (a.weaknesses.enum.map (fun p =>
          [toString (p.1 + 1), p.2.title, replaceNewlines p.2.description,
           p.2.severity, p.2.category])).get? i = some
          [toString (i + 1), (a.weaknesses.get ⟨i, h⟩).title,
           replaceNewlines (a.weaknesses.get ⟨i, h⟩).description,
           (a.weaknesses.get ⟨i, h⟩).severity,
           (a.weaknesses.get ⟨i, h⟩).category] := by
        rw [List.get?_map, List.get?_enum, List.get?_eq_get h]
        rfl
      rw [List.map_cons, List.get?_cons_succ, List.get?_map, h₁]
      rfl

/-- C9 witness: a result with one weakness produces the header plus one data
row, and quote doubling is observable on a concrete quoted string. -/
theorem exportCSV_structure_witness :
    (escapeQuotes "a\"b").data.count '"' = 2 * "a\"b".data.count '"' ∧
    (∃ lines : List String,
      exportCSV (some ⟨"Acme", "https://acme.example",
          [⟨"T", "line1\nline2", "high", "Cat"⟩], "2025-01-01", 100⟩) =
        some (jsJoin "\n" lines) ∧
      lines.length = 2 ∧
      lines.head? = some (csvRow csvHeaders) ∧
      ∀ (i : Nat)
        (h : i < ([⟨"T", "line1\nline2", "high", "Cat"⟩] : List Weakness).length),
        lines.get? (i + 1) = some (csvRow
          [toString (i + 1),
           (([⟨"T", "line1\nline2", "high", "Cat"⟩] : List Weakness).get ⟨i, h⟩).title,
           replaceNewlines
             (([⟨"T", "line1\nline2", "high", "Cat"⟩] : List Weakness).get
               ⟨i, h⟩).description,
           (([⟨"T", "line1\nline2", "high", "Cat"⟩] : List Weakness).get
             ⟨i, h⟩).severity,
           (([⟨"T", "line1\nline2", "high", "Cat"⟩] : List Weakness).get
             ⟨i, h⟩).category])) :=
  ⟨exportCSV_structure.2.1 "a\"b",
   exportCSV_structure.2.2.2.2 ⟨"Acme", "https://acme.example",
     [⟨"T", "line1\nline2", "high", "Cat"⟩], "2025-01-01", 100⟩⟩

/-- C10 counterexample: with the empty string stored under `preferred_model`,
a successful models fetch still changes the selected model to the first
server-provided id, although a stored value exists, contradicting the claim
that the selection changes only when no value is stored. -/
theorem modelsEffect_empty_stored_counterexample :
    (modelsEffect (.okList [⟨"server-model", "Server Model", "100", none⟩])
        (some "")).2 = "server-model" ∧
    (some "" : Option String) ≠ none ∧
    initModel (some "") = "gemini-2.5-flash-lite" ∧
    "server-model" ≠ "gemini-2.5-flash-lite" := by
  exact ⟨rfl, by simp, rfl, by decide⟩

/-- C10 (amended): a failed request, a non-ok status, a missing or non-array
`models` field, or an empty array keeps the bundled options and leaves the
selected model at its initial value (the stored `preferred_model` when
non-empty, else "gemini-2.5-flash-lite"); a non-empty array replaces the
options, and the selected model becomes the first server id exactly when the
stored value is absent or empty, staying at the stored value otherwise. -/
theorem modelsEffect_policy :
    (∀ (o : ModelsFetchOutcome) (stored : Option String),
      o = .failed ∨ o = .notOk ∨ o = .okNoArray ∨ o = .okList [] →
      modelsEffect o stored = (initialModelOptions, initModel stored)) ∧
    (∀ (stored : Option String) (m : ModelOption) (ms : List ModelOption),
      (modelsEffect (.okList (m :: ms)) stored).1 = m :: ms ∧
      (modelsEffect (.okList (m :: ms)) stored).2 =
        (if jsFalsy stored then m.id else initModel stored)) ∧
    (∀ v : String, v ≠ "" → initModel (some v) = v ∧ jsFalsy (some v) = false) ∧
    (initModel none = "gemini-2.5-flash-lite" ∧ jsFalsy none = true) := by
  refine ⟨?_, ?_, ?_, ⟨rfl, rfl⟩⟩
  · intro o stored h
    rcases h with h | h | h | h <;> subst h <;> rfl
  · intro stored m ms
    exact ⟨rfl, rfl⟩
  · intro v hv
    constructor <;> simp [initModel, jsFalsy, hv]

/-- C10 witness: with "x" stored, a failed fetch keeps the bundled options and
the selected model "x". -/
theorem modelsEffect_policy_witness :
    modelsEffect .failed (some "x") = (initialModelOptions, initModel (some "x")) ∧
    (initModel (some "x") = "x" ∧ jsFalsy (some "x") = false) :=
  ⟨modelsEffect_policy.1 .failed (some "x") (Or.inl rfl),
   modelsEffect_policy.2.2.1 "x" (by decide)⟩

end Frontend

end CompetitorAnalysis
